import Mathlib

/-!
Verification development for the dynamic-pricing backend (server.js).

The JavaScript source is shallowly embedded as executable Lean definitions:

* JS numbers are modelled as rationals; where NaN is reachable
  (parseFloat of an unparseable string) the value is an Option Rat with
  none standing for NaN, and every comparison against NaN is false,
  as in JS.  Floating-point rounding and the decimal printing of
  non-integer numbers are outside the model; every property checked here
  only involves values on which rationals and JS doubles agree.
* JS strings are Lean Strings; absent or null fields are Option values.
  JS truthiness for strings (empty string is falsy) is made explicit.
* External HTTP calls (Shopify, MailerLite) are abstracted as oracle
  functions supplied as parameters; everything computed locally by the
  server is translated statement by statement.
-/

attribute [local semireducible] Rat.add Rat.mul Rat.sub Rat.inv

/-- JS expression a or-else d for string-valued a: a is used when it is
present and non-empty (truthy), otherwise the literal d is used. -/
def jsOrStr (v : Option String) (d : String) : String :=
  match v with
  | some s => if s = "" then d else s
  | none => d

/-- JS truthiness of a possibly-absent string: false for undefined, null
and the empty string. -/
def jsTruthyStr (v : Option String) : Bool :=
  match v with
  | some s => decide (s ≠ "")
  | none => false

/-- JS expression a or-else d for number-valued a (0 is falsy in JS). -/
def jsOrNum (v : Option Rat) (d : Rat) : Rat :=
  match v with
  | some x => if x = 0 then d else x
  | none => d

/-- JS expression a or-else b for two possibly-absent values. -/
def jsOrOpt (a b : Option Int) : Option Int :=
  match a with
  | some x => some x
  | none => b

/-- Rendering of a JS number into a string, as used by template literals.
Integral values render as their decimal digits, which is where all the
code paths verified here live; the num/den fallback for non-integral
rationals abstracts the JS float printing algorithm, which is not
modelled. -/
def jsNumToString (q : Rat) : String :=
  if q.den = 1 then q.num.repr else q.num.repr ++ "/" ++ q.den.repr

/-- JS String.toUpperCase for the ASCII range, the only range reachable
in synthesized discount codes (prefix strings plus decimal digits). -/
def jsToUpper (s : String) : String := String.mk (s.data.map Char.toUpper)

/-- Rendering of an optional numeric bound: an unset bound is the JS
value Infinity and prints as such. -/
def boundToString (b : Option Rat) : String :=
  match b with
  | some q => jsNumToString q
  | none => "Infinity"

/-! ### Raw Shopify customer records and the metrics reducer

Source: the identical mapping in app.get /api/shopify/customers
(lines 230-258) and in app.post /api/reactivation/batch
(lines 1045-1072) of server.js. -/

/-- Raw customer record as returned by the Shopify customers endpoint.
Timestamps are modelled already parsed into milliseconds since epoch;
none stands for an absent (or empty, hence falsy) field. -/
structure RawCustomer where
  id : Option Int := none
  email : Option String := none
  first_name : Option String := none
  last_name : Option String := none
  orders_count : Option Int := none
  total_spent : Option String := none
  updated_at : Option Int := none
  created_at : Option Int := none
  tags : Option String := none
  state : Option String := none
deriving DecidableEq

/-- JS parseFloat restricted to plain decimal literals: optional sign,
integer digits, optional fraction, leading whitespace skipped, trailing
garbage ignored.  Returns none exactly when JS returns NaN.  Exponents
and the Infinity keyword never occur in Shopify total_spent strings and
are outside the model. -/
def parseFloatQ (s : String) : Option Rat :=
  let cs := s.data.dropWhile Char.isWhitespace
  let sign : Rat := match cs with
    | c :: _ => if c = '-' then -1 else 1
    | [] => 1
  let cs1 := match cs with
    | c :: rest => if c = '-' ∨ c = '+' then rest else cs
    | [] => cs
  let intDigits := cs1.takeWhile Char.isDigit
  let cs2 := cs1.dropWhile Char.isDigit
  let fracDigits := match cs2 with
    | c :: rest => if c = '.' then rest.takeWhile Char.isDigit else []
    | [] => []
  if intDigits = [] ∧ fracDigits = [] then none
  else
    let intVal : Nat := intDigits.foldl (fun n c => 10 * n + (c.toNat - 48)) 0
    let fracVal : Nat := fracDigits.foldl (fun n c => 10 * n + (c.toNat - 48)) 0
    some (sign * ((intVal : Rat) + (fracVal : Rat) / ((10 : Rat) ^ fracDigits.length)))

/-- Customer metrics record computed by the backend.  totalSpent and
averageOrderValue are none when the JS value is NaN. -/
structure CustomerMetrics where
  id : Option Int := none
  email : Option String := none
  firstName : String := "Customer"
  lastName : String := ""
  totalOrders : Int := 0
  totalSpent : Option Rat := some 0
  averageOrderValue : Option Rat := some 0
  daysSinceLastOrder : Rat := 999
  lastOrderDate : Option Int := none
  tags : String := ""
  state : String := "active"
deriving DecidableEq

/-- Metrics reducer: the body of the rawCustomers.map callback shared by
the customers endpoint and the batch endpoint.  now is Date.now() in
milliseconds. -/
def toCustomerMetrics (now : Int) (c : RawCustomer) : CustomerMetrics :=
  let totalOrders : Int := c.orders_count.getD 0
  let totalSpent : Option Rat := parseFloatQ (jsOrStr c.total_spent "0.00")
  let lastOrderDateRaw : Option Int := jsOrOpt c.updated_at c.created_at
  let daysSinceLastOrder : Rat :=
    match lastOrderDateRaw with
    | some t => ((now - t).fdiv 86400000 : Int)
    | none => 999
  { id := c.id
    email := c.email
    firstName := jsOrStr c.first_name "Customer"
    lastName := jsOrStr c.last_name ""
    totalOrders := totalOrders
    totalSpent := totalSpent
    averageOrderValue :=
      if totalOrders > 0 then totalSpent.map (fun s => s / (totalOrders : Rat))
      else some 0
    daysSinceLastOrder := daysSinceLastOrder
    lastOrderDate := lastOrderDateRaw
    tags := jsOrStr c.tags ""
    state := jsOrStr c.state "active" }

/-! ### Tier rules and the rule matcher

Source: applyRuleConfigToCustomer, server.js lines 932-1004. -/

/-- One tier of a rule configuration.  A bound field is some q exactly
when the JS field holds a number (the typeof number guard in the
source); every other field follows JS truthiness via the or-else
helpers. -/
structure TierRule where
  minTotalSpent : Option Rat := none
  maxTotalSpent : Option Rat := none
  minDaysSinceLastOrder : Option Rat := none
  maxDaysSinceLastOrder : Option Rat := none
  discountPercent : Option Rat := none
  discountCodePrefix : Option String := none
  discountCode : Option String := none
  rationale : Option String := none
  messagingAngle : Option String := none
  expectedValue : Option Rat := none
deriving DecidableEq

/-- Accessor for the code-prefix field of a tier. -/
def tierPrefix (t : TierRule) : Option String := TierRule.discountCodePrefix t

/-- Rule configuration: an ordered tier list plus an optional default
tier.  The source replaces a missing or non-array tiers field by the
empty list and a falsy default by null, which the types absorb. -/
structure RuleConfig where
  tiers : List TierRule := []
  default : Option TierRule := none
deriving DecidableEq

/-- Comparison customer-value greater-or-equal lower-bound; false when
the customer value is NaN, as every JS comparison with NaN is. -/
def jsGe (x : Option Rat) (lo : Rat) : Bool :=
  match x with
  | some v => decide (lo ≤ v)
  | none => false

/-- Comparison customer-value less-or-equal upper-bound; an unset bound
is Infinity, and NaN compares false. -/
def jsLe (x : Option Rat) (hi : Option Rat) : Bool :=
  match x, hi with
  | some v, some m => decide (v ≤ m)
  | some _, none => true
  | none, _ => false

/-- The matchesTotal and matchesDays test of applyRuleConfigToCustomer:
both bounds inclusive, unset lower bounds default to 0, unset upper
bounds to Infinity. -/
def tierMatches (c : CustomerMetrics) (t : TierRule) : Bool :=
  (jsGe c.totalSpent (t.minTotalSpent.getD 0) && jsLe c.totalSpent t.maxTotalSpent)
    && (jsGe (some c.daysSinceLastOrder) (t.minDaysSinceLastOrder.getD 0)
        && jsLe (some c.daysSinceLastOrder) t.maxDaysSinceLastOrder)

/-- Recommendation returned by the matcher. -/
structure Recommendation where
  customerId : Option Int := none
  email : Option String := none
  discountPercent : Rat := 0
  discountCode : String := ""
  rationale : String := ""
  messagingAngle : String := ""
  expectedValue : Option Rat := none
deriving DecidableEq

/-- Recommendation built from a matching tier (the then-branch of the
tier loop in applyRuleConfigToCustomer). -/
def buildRecommendation (c : CustomerMetrics) (t : TierRule) : Recommendation :=
  let discountPercent := jsOrNum t.discountPercent 0
  { customerId := c.id
    email := c.email
    discountPercent := discountPercent
    discountCode :=
      jsOrStr t.discountCode
        (jsToUpper (jsOrStr (tierPrefix t) "WINBACK" ++ jsNumToString discountPercent))
    rationale :=
      jsOrStr t.rationale
        ("Rule match: spent between " ++ jsNumToString (t.minTotalSpent.getD 0) ++ "–"
          ++ boundToString t.maxTotalSpent ++ ", inactive "
          ++ jsNumToString (t.minDaysSinceLastOrder.getD 0) ++ "–"
          ++ boundToString t.maxDaysSinceLastOrder ++ " days.")
    messagingAngle :=
      jsOrStr t.messagingAngle
        "Personalized win-back offer based on your purchase history."
    expectedValue := t.expectedValue }

/-- Recommendation built from the default tier (the defaultTier branch
of applyRuleConfigToCustomer); no bound checks are involved. -/
def buildDefaultRecommendation (c : CustomerMetrics) (d : TierRule) : Recommendation :=
  let discountPercent := jsOrNum d.discountPercent 0
  { customerId := c.id
    email := c.email
    discountPercent := discountPercent
    discountCode :=
      jsOrStr d.discountCode
        (jsToUpper (jsOrStr (tierPrefix d) "WINBACK" ++ jsNumToString discountPercent))
    rationale := jsOrStr d.rationale "Default rule applied."
    messagingAngle :=
      jsOrStr d.messagingAngle
        "We appreciate you and wanted to send you a special offer."
    expectedValue := d.expectedValue }

/-- The for-loop over config.tiers in applyRuleConfigToCustomer: first
tier passing the bounds test wins. -/
def applyTiers (c : CustomerMetrics) : List TierRule → Option Recommendation
  | [] => none
  | t :: rest =>
      if tierMatches c t then some (buildRecommendation c t) else applyTiers c rest

/-- Full applyRuleConfigToCustomer: the tier loop, then the default tier
if present, else null. -/
def applyRuleConfigToCustomer (c : CustomerMetrics) (cfg : RuleConfig) :
    Option Recommendation :=
  match applyTiers c cfg.tiers with
  | some r => some r
  | none => cfg.default.map (buildDefaultRecommendation c)

/-! ### Shopify cursor pagination

Source: fetchShopifyCustomersPaginated, server.js lines 134-194.  The
Link response header is parsed by splitting on commas, locating the
entry containing the marker rel="next" and matching the regular
expression page_info=([^&>]+) against that entry, exactly as the
source does. -/

/-- Split a character list at every comma, the JS split on a comma. -/
def splitOnCommaAux : List Char → List Char → List (List Char)
  | [], cur => [cur.reverse]
  | c :: rest, cur =>
      if c = ',' then cur.reverse :: splitOnCommaAux rest []
      else splitOnCommaAux rest (c :: cur)

/-- Split a character list at every comma. -/
def splitOnComma (s : List Char) : List (List Char) := splitOnCommaAux s []

/-- Substring test, the JS String.includes. -/
def containsSub (pat : List Char) : List Char → Bool
  | [] => pat.isEmpty
  | c :: rest => pat.isPrefixOf (c :: rest) || containsSub pat rest

/-- The marker the source searches for in each Link entry. -/
def relNextPat : List Char := "rel=\"next\"".data

/-- The literal the page_info regular expression starts with. -/
def pageInfoPat : List Char := "page_info=".data

/-- Character class of the regular expression capture: anything except
an ampersand or a closing angle bracket. -/
def notStopChar (c : Char) : Bool := !(c == '&' || c == '>')

/-- Left-to-right regex search for page_info=([^&>]+): at each start
position the literal must match and the capture must be non-empty,
otherwise the engine advances one character, as JS regex search does. -/
def matchPageInfo : List Char → Option (List Char)
  | [] => none
  | c :: rest =>
      if pageInfoPat.isPrefixOf (c :: rest) then
        let captured := ((c :: rest).drop pageInfoPat.length).takeWhile notStopChar
        if captured.isEmpty then matchPageInfo rest else some captured
      else matchPageInfo rest

/-- The links.find of the source: first comma-separated Link entry
containing rel="next". -/
def findNextLink (header : List Char) : Option (List Char) :=
  (splitOnComma header).find? (fun l => containsSub relNextPat l)

/-- Cursor extraction from an optional Link header: none when the header
is absent, no entry is marked rel=next, or page_info cannot be parsed,
in which case the source sets done = true. -/
def extractNextPageInfo : Option String → Option String
  | none => none
  | some h =>
      match findNextLink h.data with
      | none => none
      | some l => (matchPageInfo l).map (fun cs => String.mk cs)

/-- One upstream page response: the customers array of the JSON body
(missing array modelled as already-defaulted empty list) and the raw
Link header. -/
structure PageResponse where
  customers : List RawCustomer := []
  linkHeader : Option String := none

/-- Abstract Shopify upstream: the response to a GET request carrying a
per-page limit and an optional page_info cursor.  Only successful
responses are modelled; a non-ok response throws in the source and no
claim concerns that path. -/
structure FetchUpstream where
  page : Nat → Option String → PageResponse

/-- The while loop of fetchShopifyCustomersPaginated.  The fuel argument
is a bound on the number of requests, a modelling artifact standing for
the unbounded JS loop; every theorem either holds for all fuel or
assumes enough of it.  Returns the accumulated customers and the number
of requests issued. -/
def fetchPagesAux (up : FetchUpstream) (limitTotal : Nat) :
    Nat → List RawCustomer → Option String → List RawCustomer × Nat
  | 0, acc, _ => (acc, 0)
  | fuel + 1, acc, pageInfo =>
      if acc.length < limitTotal then
        let resp := up.page (min 250 (limitTotal - acc.length)) pageInfo
        match extractNextPageInfo resp.linkHeader with
        | none => (acc ++ resp.customers, 1)
        | some c =>
            let r := fetchPagesAux up limitTotal fuel (acc ++ resp.customers) (some c)
            (r.1, r.2 + 1)
      else (acc, 0)

/-- fetchShopifyCustomersPaginated: run the loop from an empty
accumulator and no cursor, then slice to limitTotal. -/
def fetchShopifyCustomersPaginated (up : FetchUpstream) (limitTotal fuel : Nat) :
    List RawCustomer :=
  ((fetchPagesAux up limitTotal fuel [] none).1).take limitTotal

/-- Number of HTTP requests issued by the pagination loop. -/
def fetchRequestCount (up : FetchUpstream) (limitTotal fuel : Nat) : Nat :=
  (fetchPagesAux up limitTotal fuel [] none).2

/-- A well-behaved upstream holding total records: cursors decode to
positions via pos, the first request starts at position zero, every page
returns min(perPage, records remaining) records, and a parseable
rel=next cursor is supplied exactly when records remain after the
page. -/
def GoodUpstream (up : FetchUpstream) (total : Nat) (pos : Option String → Nat) : Prop :=
  pos none = 0 ∧
  ∀ perPage c,
    (up.page perPage c).customers.length = min perPage (total - pos c) ∧
    (∀ c2, extractNextPageInfo (up.page perPage c).linkHeader = some c2 →
        pos c + perPage < total ∧ pos (some c2) = pos c + perPage) ∧
    (extractNextPageInfo (up.page perPage c).linkHeader = none →
        total ≤ pos c + perPage)

/-! ### Batch reactivation endpoint

Source: app.post /api/reactivation/batch, server.js lines 1045-1164:
the metrics mapping, the recommendation filter and the response
shape.  The MailerLite subscriber loop iterates exactly over the
filtered recommendations list, recorded here as the
mailerLiteSubscribers field. -/

/-- Recommendations kept by the batch loop: the matcher output passes
only when it is non-null, its discountPercent is positive and its email
is truthy. -/
def reactivationBatchRecommendations (now : Int) (raw : List RawCustomer)
    (cfg : RuleConfig) : List Recommendation :=
  (raw.map (toCustomerMetrics now)).filterMap (fun c =>
    match applyRuleConfigToCustomer c cfg with
    | some rec => if rec.discountPercent > 0 ∧ jsTruthyStr rec.email then some rec else none
    | none => none)

/-- Observable outcome of the batch endpoint on the success path. -/
structure BatchOutcome where
  totalRecommendations : Nat
  sampleRecommendations : List Recommendation
  mailerLiteSubscribers : List Recommendation

/-- Success-path response of the batch endpoint: counts and samples of
the filtered recommendations, and the list of recommendations sent to
the MailerLite subscriber loop when sendToMailerLite is set. -/
def reactivationBatchOutcome (now : Int) (raw : List RawCustomer) (cfg : RuleConfig)
    (sendToMailerLite : Bool) : BatchOutcome :=
  let recommendations := reactivationBatchRecommendations now raw cfg
  { totalRecommendations := recommendations.length
    sampleRecommendations := recommendations.take 20
    mailerLiteSubscribers := if sendToMailerLite then recommendations else [] }

/-! ### Discount creation endpoint

Source: app.post /api/shopify/discounts, server.js lines 526-639.  The
two Shopify calls creating a price rule and its discount code are
abstracted by a create oracle returning whether both succeed; the
uniqueCodes object is an insertion-ordered association list (JS
plain-object key ordering of integer-like keys and prototype-inherited
keys is not modelled, and no claim depends on it). -/

/-- Recommendation as read from the request body of the discounts
endpoint; only these two fields are consulted. -/
structure DiscountReq where
  discountCode : Option String := none
  discountPercent : Option Rat := none
deriving DecidableEq

/-- Association-list lookup used to model JS property access on the
uniqueCodes object. -/
def lookupCode : List (String × Rat) → String → Option Rat
  | [], _ => none
  | e :: rest, c => if e.1 = c then some e.2 else lookupCode rest c

/-- The statement uniqueCodes[code] = pct guarded by the falsiness test
if (!uniqueCodes[code]): an absent key is appended, a key holding the
falsy number 0 is overwritten in place, any other stored value is
kept. -/
def jsSetIfFalsy (acc : List (String × Rat)) (code : String) (pct : Rat) :
    List (String × Rat) :=
  match lookupCode acc code with
  | none => acc ++ [(code, pct)]
  | some v =>
      if v = 0 then acc.map (fun e => if e.1 = code then (code, pct) else e) else acc

/-- The recommendations.forEach building uniqueCodes: only records with
a truthy discountCode and a numeric discountPercent participate. -/
def uniqueCodesAux : List (String × Rat) → List DiscountReq → List (String × Rat)
  | acc, [] => acc
  | acc, r :: rest =>
      match r.discountCode, r.discountPercent with
      | some code, some pct =>
          if code ≠ "" then uniqueCodesAux (jsSetIfFalsy acc code pct) rest
          else uniqueCodesAux acc rest
      | _, _ => uniqueCodesAux acc rest

/-- The uniqueCodes object built from the request body. -/
def uniqueCodesOf (recs : List DiscountReq) : List (String × Rat) :=
  uniqueCodesAux [] recs

/-- The for-of loop over Object.entries(uniqueCodes): each entry is
attempted once; a success is pushed onto createdCodes, a failure onto
failedCodes (the error text of a failed entry is abstracted away), and
the loop always continues. -/
def runDiscountLoop (create : String → Rat → Bool) :
    List (String × Rat) → List (String × Rat) × List String
  | [] => ([], [])
  | (code, pct) :: rest =>
      let r := runDiscountLoop create rest
      if create code pct then ((code, pct) :: r.1, r.2) else (r.1, code :: r.2)

/-- Observable response of the discounts endpoint. -/
structure DiscountsResponse where
  status : Nat
  createdCodes : List (String × Rat) := []
  failedCodes : List String := []
deriving DecidableEq

/-- app.post /api/shopify/discounts: credentials are checked first
(HTTP 400 when either is missing), then the recommendations array
(HTTP 400 when absent, not an array, or empty; the none case covers
both an absent field and a non-array value), then the per-code creation
loop runs and the endpoint answers 200 with created and failed
codes. -/
def postShopifyDiscounts (shopifyKey shopifyStore : Option String)
    (recommendations : Option (List DiscountReq)) (create : String → Rat → Bool) :
    DiscountsResponse :=
  if ¬ (jsTruthyStr shopifyKey ∧ jsTruthyStr shopifyStore) then
    { status := 400 }
  else
    match recommendations with
    | none => { status := 400 }
    | some recs =>
        if recs.isEmpty then { status := 400 }
        else
          let u := uniqueCodesOf recs
          let r := runDiscountLoop create u
          { status := 200, createdCodes := r.1, failedCodes := r.2 }

/-! ### Specification-side predicates and concrete fixtures -/

/-- Inclusive-bounds membership as the specification words it: totalSpent
lies in the interval given by minTotalSpent (default 0) and maxTotalSpent
(default positive infinity, expressed as the absence of an upper
constraint), and likewise for daysSinceLastOrder; a NaN totalSpent lies
in no interval. -/
def InTierBounds (c : CustomerMetrics) (t : TierRule) : Prop :=
  (∃ v, c.totalSpent = some v ∧ t.minTotalSpent.getD 0 ≤ v ∧
      ∀ m, t.maxTotalSpent = some m → v ≤ m) ∧
  (t.minDaysSinceLastOrder.getD 0 ≤ c.daysSinceLastOrder ∧
      ∀ m, t.maxDaysSinceLastOrder = some m → c.daysSinceLastOrder ≤ m)

/-- A request-body recommendation participating in uniqueCodes: truthy
discountCode and numeric discountPercent. -/
def validRec (r : DiscountReq) : Bool :=
  jsTruthyStr r.discountCode && r.discountPercent.isSome

/-- A participating recommendation carrying the given code. -/
def validForCode (code : String) (r : DiscountReq) : Bool :=
  validRec r && decide (r.discountCode = some code)

/-- Whether any participating recommendation carries the given code. -/
def hasValidFor (code : String) (recs : List DiscountReq) : Bool :=
  recs.any (validForCode code)

/-- Percent of the first participating recommendation for the given code
whose percent is non-zero (JS-truthy), if any. -/
def firstNZPct (code : String) (recs : List DiscountReq) : Option Rat :=
  (recs.find? (fun r => validForCode code r && decide (r.discountPercent.getD 0 ≠ 0))).bind
    (fun r => r.discountPercent)

/-- Customer metrics of the order-sensitivity test: spend 75, thirty days
inactive. -/
def metrics75 : CustomerMetrics := { totalSpent := some 75, daysSinceLastOrder := 30 }

/-- First overlapping tier of the order-sensitivity test: spend 0-100,
ten percent. -/
def tierPct10 : TierRule :=
  { minTotalSpent := some 0, maxTotalSpent := some 100, discountPercent := some 10 }

/-- Second overlapping tier of the order-sensitivity test: spend 50-150,
twenty percent. -/
def tierPct20 : TierRule :=
  { minTotalSpent := some 50, maxTotalSpent := some 150, discountPercent := some 20 }

/-- Tier of the code-synthesis test: prefix SAVE, fifteen percent, no
explicit code. -/
def saveTier15 : TierRule := { discountPercent := some 15, discountCodePrefix := some "SAVE" }

/-- Tier matching no customer of the fixtures (minimum spend 1000). -/
def noMatchTier : TierRule := { minTotalSpent := some 1000 }

/-- Default tier fixture: fifteen percent. -/
def defaultTier15 : TierRule := { discountPercent := some 15 }

/-- Rule configuration with one unmatchable tier and a default. -/
def cfgWithDefault : RuleConfig := { tiers := [noMatchTier], default := some defaultTier15 }

/-- Raw customer with every field absent. -/
def rawEmpty : RawCustomer := {}

/-- Raw customer with two orders and a fifty-dollar spend string. -/
def rawTwoOrders : RawCustomer := { orders_count := some 2, total_spent := some "50.00" }

/-- Raw customer whose spend string parses to NaN. -/
def rawSpentAbc : RawCustomer := { total_spent := some "abc" }

/-- Raw customer whose spend string is present but empty, hence falsy. -/
def rawSpentEmpty : RawCustomer := { total_spent := some "" }

/-- Raw customer updated one day in the future of the fixed clock 0. -/
def rawFuture : RawCustomer := { updated_at := some 86400000 }

/-- Upstream answering every request with an empty page and no Link
header. -/
def emptyUpstream : FetchUpstream := { page := fun _ _ => {} }

/-- The single raw customer of the one-page upstream fixture. -/
def rawOne : RawCustomer := { id := some 1 }

/-- Upstream answering every request with one customer and a Link header
whose only entry is marked rel=prev. -/
def onePageUpstream : FetchUpstream :=
  { page := fun _ _ =>
      { customers := [rawOne], linkHeader := some "<https://x/c.json?page_info=Q>; rel=\"prev\"" } }

/-- Discount request fixture: code A at ten percent. -/
def recA10 : DiscountReq := { discountCode := some "A", discountPercent := some 10 }

/-- Discount request fixture: code B at five percent. -/
def recB5 : DiscountReq := { discountCode := some "B", discountPercent := some 5 }

/-- Discount request fixture lacking a code. -/
def recNoCode5 : DiscountReq := { discountPercent := some 5 }

/-- Discount request fixture: code A at zero percent. -/
def recA0 : DiscountReq := { discountCode := some "A", discountPercent := some 0 }

/-- Discount request fixture: code A at twenty percent. -/
def recA20 : DiscountReq := { discountCode := some "A", discountPercent := some 20 }

/-- Creation oracle succeeding exactly on code A. -/
def createOnlyA : String → Rat → Bool := fun code _ => code == "A"

/-- Tier of the code-synthesis witness: lowercase prefix low, seven
percent, no explicit code. -/
def lowTier7 : TierRule := { discountPercent := some 7, discountCodePrefix := some "low" }

/-- Raw customer with an email and a spend matching the twenty-percent
tier. -/
def rawBuyer : RawCustomer :=
  { email := some "a@b.c", total_spent := some "75.00", updated_at := some 0 }

/-! ### Helper lemmas -/

/-- The tier for-loop returns the recommendation of the first tier
passing the bounds test. -/
theorem applyTiers_eq_find (c : CustomerMetrics) (ts : List TierRule) :
    applyTiers c ts = (ts.find? (fun t => tierMatches c t)).map (buildRecommendation c) := by
  induction ts with
  | nil => rfl
  | cons t rest ih =>
      cases h : tierMatches c t <;> simp [applyTiers, List.find?, h, ih]

/-- The boolean bounds test of the source agrees with the inclusive
interval membership the specification describes. -/
theorem tierMatches_iff_inTierBounds (c : CustomerMetrics) (t : TierRule) :
    tierMatches c t = true ↔ InTierBounds c t := by
  unfold tierMatches InTierBounds jsGe jsLe
  cases hs : c.totalSpent with
  | none => simp
  | some v =>
      cases hm : t.maxTotalSpent <;> cases hd : t.maxDaysSinceLastOrder <;>
        simp [Bool.and_eq_true, decide_eq_true_eq]

/-! ### Claims about the tier matcher -/

/-- Claim C1: for every customer metrics record and rule configuration
the matcher evaluates config.tiers in list order and returns the
recommendation built from the first tier whose two inclusive bounds
tests both hold, unset bounds defaulting to 0 or positive infinity; on
the overlapping-tier example with totalSpent 75 the returned
recommendation carries discountPercent 10, not 20. -/
theorem claim_C1_first_match_wins :
    (∀ (c : CustomerMetrics) (cfg : RuleConfig),
      (applyRuleConfigToCustomer c cfg =
        match cfg.tiers.find? (fun t => tierMatches c t) with
        | some t => some (buildRecommendation c t)
        | none => cfg.default.map (buildDefaultRecommendation c))
      ∧ ∀ t, tierMatches c t = true ↔ InTierBounds c t)
    ∧ (applyRuleConfigToCustomer metrics75 { tiers := [tierPct10, tierPct20] }).map
        Recommendation.discountPercent = some 10 := by
  refine ⟨fun c cfg => ⟨?_, fun t => tierMatches_iff_inTierBounds c t⟩, by decide⟩
  unfold applyRuleConfigToCustomer
  rw [applyTiers_eq_find]
  cases cfg.tiers.find? (fun t => tierMatches c t) <;> rfl

/-- Claim C5: when no tier of the configuration matches the customer,
the matcher returns the recommendation built from the default tier when
one is present (no bound checks) and null otherwise. -/
theorem claim_C5_default_fallback (c : CustomerMetrics) (cfg : RuleConfig)
    (hno : ∀ t ∈ cfg.tiers, tierMatches c t = false) :
    applyRuleConfigToCustomer c cfg = cfg.default.map (buildDefaultRecommendation c) := by
  unfold applyRuleConfigToCustomer
  rw [applyTiers_eq_find, List.find?_eq_none.mpr (fun t ht => by simp [hno t ht])]
  rfl

/-- Claim C5 witness: a customer matching no tier of a configuration
carrying a default receives exactly the default-tier recommendation. -/
theorem claim_C5_witness :
    applyRuleConfigToCustomer metrics75 cfgWithDefault =
      some (buildDefaultRecommendation metrics75 defaultTier15) := by
  have h := claim_C5_default_fallback metrics75 cfgWithDefault (by decide)
  simpa [cfgWithDefault] using h

/-- Claim C6: a selected tier or default tier with no explicit
discountCode yields the uppercased concatenation of its
discountCodePrefix (default WINBACK) and its discountPercent; prefix
SAVE with percent 15 yields SAVE15, and no prefix with percent 20
yields WINBACK20 through the full matcher. -/
theorem claim_C6_code_synthesis :
    (∀ (c : CustomerMetrics) (t : TierRule), jsTruthyStr t.discountCode = false →
      (buildRecommendation c t).discountCode =
          jsToUpper (jsOrStr (tierPrefix t) "WINBACK" ++ jsNumToString (jsOrNum t.discountPercent 0))
        ∧ (buildDefaultRecommendation c t).discountCode =
          jsToUpper (jsOrStr (tierPrefix t) "WINBACK" ++ jsNumToString (jsOrNum t.discountPercent 0)))
    ∧ (buildRecommendation metrics75 saveTier15).discountCode = "SAVE15"
    ∧ (applyRuleConfigToCustomer metrics75 { tiers := [tierPct20] }).map
        Recommendation.discountCode = some "WINBACK20" := by
  refine ⟨fun c t h => ?_, by decide, by decide⟩
  cases ht : t.discountCode with
  | none => constructor <;> simp [buildRecommendation, buildDefaultRecommendation, jsOrStr, ht]
  | some s =>
      have hs : s = "" := by
        simpa [jsTruthyStr, ht] using h
      subst hs
      constructor <;> simp [buildRecommendation, buildDefaultRecommendation, jsOrStr, ht]

/-- Claim C6 witness: a lowercase prefix low with percent 7 and no
explicit code synthesizes LOW7. -/
theorem claim_C6_witness :
    (buildRecommendation metrics75 lowTier7).discountCode = "LOW7" := by
  have h := (claim_C6_code_synthesis.1 metrics75 lowTier7 (by decide)).1
  rw [h]; decide

/-- Claim C9: averageOrderValue is totalSpent divided by totalOrders
when totalOrders is positive and 0 when totalOrders is zero; the
division is guarded, never by zero. -/
theorem claim_C9_average_order_value :
    ∀ (now : Int) (c : RawCustomer),
      ((toCustomerMetrics now c).totalOrders > 0 →
        (toCustomerMetrics now c).averageOrderValue =
          Option.map (fun s => s / (((toCustomerMetrics now c).totalOrders : Int) : Rat))
            (toCustomerMetrics now c).totalSpent)
      ∧ ((toCustomerMetrics now c).totalOrders = 0 →
          (toCustomerMetrics now c).averageOrderValue = some 0) := by
  intro now c
  constructor <;> intro h <;> simp only [toCustomerMetrics] at h ⊢
  · rw [if_pos h]
  · rw [if_neg (by omega)]

/-- Claim C9 witness: two orders at fifty dollars average to
twenty-five, and an order-less record averages to zero. -/
theorem claim_C9_witness :
    (toCustomerMetrics 0 rawTwoOrders).averageOrderValue = some 25 ∧
    (toCustomerMetrics 0 rawEmpty).averageOrderValue = some 0 := by
  constructor
  · have h := (claim_C9_average_order_value 0 rawTwoOrders).1 (by decide)
    rw [h]; decide
  · exact (claim_C9_average_order_value 0 rawEmpty).2 (by decide)

/-- Claim C3 counterexample: the record whose total_spent is the
unparseable non-empty string abc gets NaN (no numeric value) as
totalSpent, not 0.00 as the claim states. -/
theorem claim_C3_counterexample :
    (toCustomerMetrics 0 rawSpentAbc).totalSpent = none ∧
    (toCustomerMetrics 0 rawSpentAbc).totalSpent ≠ some 0 := by
  constructor <;> decide

/-- Claim C3 as amended: the metrics reducer is total; a missing order
count yields totalOrders 0; a missing or empty (falsy) spend string
yields totalSpent 0.00 while a non-empty spend string is handed to
parseFloat, an unparseable one yielding NaN; a record missing both
updated_at and created_at yields daysSinceLastOrder 999 exactly;
otherwise daysSinceLastOrder is the floor of (now minus timestamp) over
86400 seconds, which is negative for a future timestamp (not clamped),
as the final conjunct exhibits. -/
theorem claim_C3_metrics_reducer :
    (∀ (now : Int) (c : RawCustomer),
      (c.orders_count = none → (toCustomerMetrics now c).totalOrders = 0)
      ∧ (c.total_spent = none → (toCustomerMetrics now c).totalSpent = some 0)
      ∧ (c.total_spent = some "" → (toCustomerMetrics now c).totalSpent = some 0)
      ∧ (∀ s, c.total_spent = some s → s ≠ "" →
          (toCustomerMetrics now c).totalSpent = parseFloatQ s)
      ∧ (c.updated_at = none → c.created_at = none →
          (toCustomerMetrics now c).daysSinceLastOrder = 999)
      ∧ (∀ t, jsOrOpt c.updated_at c.created_at = some t →
          (toCustomerMetrics now c).daysSinceLastOrder = (((now - t).fdiv 86400000 : Int) : Rat)))
    ∧ (toCustomerMetrics 0 rawFuture).daysSinceLastOrder = -1 := by
  refine ⟨fun now c => ⟨?_, ?_, ?_, ?_, ?_, ?_⟩, by decide⟩
  · intro h; simp [toCustomerMetrics, h]
  · intro h; simp [toCustomerMetrics, h, jsOrStr]; decide
  · intro h; simp [toCustomerMetrics, h, jsOrStr]; decide
  · intro s hs hne; simp [toCustomerMetrics, hs, jsOrStr, hne]
  · intro h1 h2; simp [toCustomerMetrics, jsOrOpt, h1, h2]
  · intro t ht; simp [toCustomerMetrics, ht]

/-- Claim C3 witness: the all-absent record reduces to zero orders, a
zero spend and the 999 sentinel; an empty spend string also reduces to
a zero spend; and a record with an explicit timestamp gets the
floor-division day count. -/
theorem claim_C3_witness :
    (toCustomerMetrics 0 rawEmpty).totalOrders = 0 ∧
    (toCustomerMetrics 0 rawEmpty).totalSpent = some 0 ∧
    (toCustomerMetrics 0 rawSpentEmpty).totalSpent = some 0 ∧
    (toCustomerMetrics 0 rawEmpty).daysSinceLastOrder = 999 ∧
    (toCustomerMetrics 6048000000 { updated_at := some 0 }).daysSinceLastOrder = 70 := by
  refine ⟨(claim_C3_metrics_reducer.1 0 rawEmpty).1 rfl,
    (claim_C3_metrics_reducer.1 0 rawEmpty).2.1 rfl,
    (claim_C3_metrics_reducer.1 0 rawSpentEmpty).2.2.1 rfl,
    (claim_C3_metrics_reducer.1 0 rawEmpty).2.2.2.2.1 rfl rfl,
    ((claim_C3_metrics_reducer.1 6048000000 { updated_at := some 0 }).2.2.2.2.2 0 rfl).trans
      (by decide)⟩

/-- The option returned for one customer by the batch filter is the
matcher output exactly when that output is kept. -/
theorem batchKeep_iff (cfg : RuleConfig) (c : CustomerMetrics) (rec : Recommendation) :
    (match applyRuleConfigToCustomer c cfg with
      | some r => if r.discountPercent > 0 ∧ jsTruthyStr r.email then some r else none
      | none => none) = some rec
    ↔ applyRuleConfigToCustomer c cfg = some rec ∧
        rec.discountPercent > 0 ∧ jsTruthyStr rec.email = true := by
  cases h : applyRuleConfigToCustomer c cfg with
  | none => simp
  | some r =>
      simp only [Option.some.injEq]
      by_cases hc : r.discountPercent > 0 ∧ jsTruthyStr r.email
      · rw [if_pos hc]
        constructor
        · rintro h2; cases h2; exact ⟨rfl, hc.1, hc.2⟩
        · rintro ⟨h2, _⟩; cases h2; rfl
      · rw [if_neg hc]
        constructor
        · rintro ⟨⟩
        · rintro ⟨h2, hp, he⟩; cases h2; exact absurd ⟨hp, he⟩ hc

/-- Claim C7: the batch pipeline keeps a matcher recommendation exactly
when its discountPercent is positive and its email is truthy; the
response counts, samples and MailerLite subscriber loop all range over
that filtered list only. -/
theorem claim_C7_batch_filter :
    ∀ (now : Int) (raw : List RawCustomer) (cfg : RuleConfig) (send : Bool),
      (∀ rec, rec ∈ reactivationBatchRecommendations now raw cfg ↔
          ∃ c ∈ raw.map (toCustomerMetrics now),
            applyRuleConfigToCustomer c cfg = some rec ∧
              rec.discountPercent > 0 ∧ jsTruthyStr rec.email = true)
      ∧ (∀ rec ∈ reactivationBatchRecommendations now raw cfg,
            rec.discountPercent > 0 ∧ jsTruthyStr rec.email = true)
      ∧ reactivationBatchOutcome now raw cfg send =
          { totalRecommendations := (reactivationBatchRecommendations now raw cfg).length
            sampleRecommendations := (reactivationBatchRecommendations now raw cfg).take 20
            mailerLiteSubscribers :=
              if send then reactivationBatchRecommendations now raw cfg else [] } := by
  intro now raw cfg send
  have hmem : ∀ rec, rec ∈ reactivationBatchRecommendations now raw cfg ↔
      ∃ c ∈ raw.map (toCustomerMetrics now),
        applyRuleConfigToCustomer c cfg = some rec ∧
          rec.discountPercent > 0 ∧ jsTruthyStr rec.email = true := by
    intro rec
    unfold reactivationBatchRecommendations
    rw [List.mem_filterMap]
    constructor
    · rintro ⟨c, hc, hf⟩; exact ⟨c, hc, (batchKeep_iff cfg c rec).mp hf⟩
    · rintro ⟨c, hc, hf⟩; exact ⟨c, hc, (batchKeep_iff cfg c rec).mpr hf⟩
  refine ⟨hmem, fun rec hrec => ?_, rfl⟩
  obtain ⟨c, _, hf⟩ := (hmem rec).mp hrec
  exact ⟨hf.2.1, hf.2.2⟩

/-- Claim C7 witness: the recommendation kept for a buyer with an email
and a matching tier has positive percent and a truthy email. -/
theorem claim_C7_witness :
    (buildRecommendation (toCustomerMetrics 0 rawBuyer) tierPct20).discountPercent > 0 ∧
    jsTruthyStr (buildRecommendation (toCustomerMetrics 0 rawBuyer) tierPct20).email = true :=
  (claim_C7_batch_filter 0 [rawBuyer] { tiers := [tierPct20] } true).2.1 _ (by decide)

/-- Length of the pagination-loop result under a well-behaved upstream,
by induction on fuel: starting from any reachable loop state the final
accumulator holds min limit total records (or is returned unchanged when
the cap is already met). -/
theorem fetchPagesAux_length_good (up : FetchUpstream) (total limit : Nat)
    (pos : Option String → Nat) (hg : GoodUpstream up total pos) :
    ∀ (fuel : Nat) (acc : List RawCustomer) (c : Option String),
      pos c = acc.length → acc.length ≤ total → acc.length ≤ limit →
      total - acc.length < fuel →
      ((fetchPagesAux up limit fuel acc c).1).length =
        if acc.length < limit then min limit total else acc.length := by
  intro fuel
  induction fuel with
  | zero => intro acc c _ _ _ h4; exact absurd h4 (Nat.not_lt_zero _)
  | succ f ih =>
      intro acc c hpos hta hla hfuel
      by_cases hlt : acc.length < limit
      · obtain ⟨h0, hpage⟩ := hg
        obtain ⟨hlen, hsome, hnone⟩ := hpage (min 250 (limit - acc.length)) c
        simp only [fetchPagesAux, if_pos hlt]
        cases hext : extractNextPageInfo (up.page (min 250 (limit - acc.length)) c).linkHeader with
        | none =>
            have hb := hnone hext
            simp only [List.length_append, hlen, if_pos hlt]
            omega
        | some c2 =>
            obtain ⟨hrem, hposc2⟩ := hsome c2 hext
            have hlen2 : (acc ++ (up.page (min 250 (limit - acc.length)) c).customers).length
                = acc.length + min 250 (limit - acc.length) := by
              rw [List.length_append, hlen]
              omega
            have hstep := ih (acc ++ (up.page (min 250 (limit - acc.length)) c).customers)
              (some c2)
              (by rw [hposc2, hlen2, hpos])
              (by omega)
              (by omega)
              (by omega)
            simp only [hstep]
            split_ifs <;> omega
      · simp only [fetchPagesAux, if_neg hlt]

/-- Claim C2: for any upstream behavior and any fuel the fetch returns
at most limitTotal records, the result being the loop accumulator
truncated to limitTotal; and under a well-behaved upstream holding
total records (pages of min(requested, remaining) records with a
rel=next cursor exactly while records remain) the result length is
exactly min limitTotal total. -/
theorem claim_C2_pagination_length :
    ∀ (up : FetchUpstream) (limitTotal fuel : Nat),
      (fetchShopifyCustomersPaginated up limitTotal fuel).length ≤ limitTotal
      ∧ fetchShopifyCustomersPaginated up limitTotal fuel =
          ((fetchPagesAux up limitTotal fuel [] none).1).take limitTotal
      ∧ ∀ (total : Nat) (pos : Option String → Nat),
          GoodUpstream up total pos → total < fuel →
          (fetchShopifyCustomersPaginated up limitTotal fuel).length = min limitTotal total := by
  intro up limitTotal fuel
  refine ⟨?_, rfl, ?_⟩
  · simp [fetchShopifyCustomersPaginated]
  · intro total pos hg hfuel
    have h := fetchPagesAux_length_good up total limitTotal pos hg fuel [] none
      (by simpa using hg.1) (by simp) (by simp) (by simpa using hfuel)
    unfold fetchShopifyCustomersPaginated
    rw [List.length_take, h]
    simp only [List.length_nil]
    split_ifs <;> omega

/-- Claim C2 witness: fetching five records from an upstream holding
none returns the empty sequence, of length min 5 0. -/
theorem claim_C2_witness :
    (fetchShopifyCustomersPaginated emptyUpstream 5 1).length = min 5 0 := by
  refine (claim_C2_pagination_length emptyUpstream 5 1).2.2 0 (fun _ => 0) ⟨rfl, ?_⟩ (by decide)
  intro perPage c
  refine ⟨by simp [emptyUpstream], fun c2 hc2 => ?_, fun _ => by omega⟩
  simp [emptyUpstream, extractNextPageInfo] at hc2

/-- Each of the three no-next-page conditions of the source (absent
header, no entry marked rel=next, unparseable page_info) makes the
cursor extraction return none. -/
theorem extractNextPageInfo_eq_none (h : Option String)
    (hc : h = none ∨ (∃ s, h = some s ∧ findNextLink s.data = none)
        ∨ ∃ s l, h = some s ∧ findNextLink s.data = some l ∧ matchPageInfo l = none) :
    extractNextPageInfo h = none := by
  rcases hc with rfl | ⟨s, rfl, hfind⟩ | ⟨s, l, rfl, hfind, hm⟩
  · rfl
  · simp [extractNextPageInfo, hfind]
  · simp [extractNextPageInfo, hfind, hm]

/-- Claim C8: with a positive cap (and any positive fuel), when the
first response omits the Link header, or no entry of it is marked
rel=next, or page_info cannot be parsed from that entry, exactly one
request is issued and the result is that single page truncated to
limitTotal. -/
theorem claim_C8_single_request (up : FetchUpstream) (limitTotal fuel : Nat)
    (hl : 0 < limitTotal) (hfuel : 0 < fuel)
    (hnext : (up.page (min 250 limitTotal) none).linkHeader = none
      ∨ (∃ s, (up.page (min 250 limitTotal) none).linkHeader = some s
          ∧ findNextLink s.data = none)
      ∨ ∃ s l, (up.page (min 250 limitTotal) none).linkHeader = some s
          ∧ findNextLink s.data = some l ∧ matchPageInfo l = none) :
    fetchRequestCount up limitTotal fuel = 1 ∧
    fetchShopifyCustomersPaginated up limitTotal fuel =
      ((up.page (min 250 limitTotal) none).customers).take limitTotal := by
  have hext := extractNextPageInfo_eq_none _ hnext
  obtain ⟨f, rfl⟩ : ∃ f, fuel = f + 1 := ⟨fuel - 1, by omega⟩
  constructor
  · unfold fetchRequestCount
    simp only [fetchPagesAux, List.length_nil, Nat.sub_zero, if_pos hl, hext]
  · unfold fetchShopifyCustomersPaginated
    simp only [fetchPagesAux, List.length_nil, Nat.sub_zero, if_pos hl, hext, List.nil_append]

/-- Claim C8 witness: an upstream whose only Link entry is marked
rel=prev is asked exactly once and its single record is returned. -/
theorem claim_C8_witness :
    fetchRequestCount onePageUpstream 5 3 = 1 ∧
    fetchShopifyCustomersPaginated onePageUpstream 5 3 = [rawOne] := by
  have h := claim_C8_single_request onePageUpstream 5 3 (by decide) (by decide)
    (Or.inr (Or.inl ⟨_, rfl, by decide⟩))
  exact ⟨h.1, h.2.trans (by decide)⟩

/-- The per-code creation loop partitions the unique-code entries into
successes and failed codes, never aborting. -/
theorem runDiscountLoop_eq (create : String → Rat → Bool) (entries : List (String × Rat)) :
    runDiscountLoop create entries =
      (entries.filter (fun e => create e.1 e.2),
       (entries.filter (fun e => !(create e.1 e.2))).map Prod.fst) := by
  induction entries with
  | nil => rfl
  | cons e rest ih =>
      obtain ⟨code, pct⟩ := e
      cases h : create code pct <;> simp [runDiscountLoop, ih, List.filter_cons, h]

/-- Lookup distributes over append when the key is found on the left. -/
theorem lookupCode_append_some (l1 l2 : List (String × Rat)) (c : String) (v : Rat)
    (h : lookupCode l1 c = some v) : lookupCode (l1 ++ l2) c = some v := by
  induction l1 with
  | nil => simp [lookupCode] at h
  | cons e rest ih =>
      by_cases he : e.1 = c
      · simp only [lookupCode, if_pos he] at h ⊢; exact h
      · simp only [lookupCode, if_neg he] at h ⊢; exact ih h

/-- Lookup falls through to the right list when the key is absent on the
left. -/
theorem lookupCode_append_none (l1 l2 : List (String × Rat)) (c : String)
    (h : lookupCode l1 c = none) : lookupCode (l1 ++ l2) c = lookupCode l2 c := by
  induction l1 with
  | nil => rfl
  | cons e rest ih =>
      by_cases he : e.1 = c
      · simp [lookupCode, he] at h
      · simp only [lookupCode, if_neg he] at h ⊢; exact ih h

/-- The in-place overwrite of one key leaves every other key alone. -/
theorem lookupCode_map_ne (acc : List (String × Rat)) (code : String) (pct : Rat)
    (c : String) (h : c ≠ code) :
    lookupCode (acc.map (fun e => if e.1 = code then (code, pct) else e)) c =
      lookupCode acc c := by
  induction acc with
  | nil => rfl
  | cons e rest ih =>
      by_cases he : e.1 = code
      · have h1 : code ≠ c := fun hh => h hh.symm
        have h2 : e.1 ≠ c := by rw [he]; exact h1
        simp only [List.map_cons, if_pos he, lookupCode, if_neg h1, if_neg h2]
        exact ih
      · simp only [List.map_cons, if_neg he, lookupCode]
        by_cases h2 : e.1 = c
        · simp [h2]
        · simp only [if_neg h2]; exact ih

/-- The in-place overwrite stores the new value under a present key. -/
theorem lookupCode_map_overwrite (acc : List (String × Rat)) (code : String) (pct : Rat)
    (h : (lookupCode acc code).isSome) :
    lookupCode (acc.map (fun e => if e.1 = code then (code, pct) else e)) code = some pct := by
  induction acc with
  | nil => simp [lookupCode] at h
  | cons e rest ih =>
      by_cases he : e.1 = code
      · simp [List.map_cons, if_pos he, lookupCode]
      · simp only [lookupCode, if_neg he] at h
        simp only [List.map_cons, if_neg he, lookupCode, if_neg he]
        exact ih h

/-- A key that lookup misses is not among the stored keys. -/
theorem lookupCode_none_keys (acc : List (String × Rat)) (c : String)
    (h : lookupCode acc c = none) : c ∉ acc.map Prod.fst := by
  induction acc with
  | nil => simp
  | cons e rest ih =>
      by_cases he : e.1 = c
      · simp [lookupCode, he] at h
      · simp only [lookupCode, if_neg he] at h
        simp only [List.map_cons, List.mem_cons]
        rintro (hh | hh)
        · exact he hh.symm
        · exact ih h hh

/-- Lookup after the guarded falsy-overwriting store, at the stored
key. -/
theorem jsSetIfFalsy_lookup_self (acc : List (String × Rat)) (code : String) (pct : Rat) :
    lookupCode (jsSetIfFalsy acc code pct) code =
      match lookupCode acc code with
      | none => some pct
      | some v => some (if v = 0 then pct else v) := by
  unfold jsSetIfFalsy
  cases h : lookupCode acc code with
  | none =>
      simp only []
      rw [lookupCode_append_none _ _ _ h]
      simp [lookupCode]
  | some v =>
      simp only []
      by_cases hv : v = 0
      · rw [if_pos hv, lookupCode_map_overwrite acc code pct (by rw [h]; rfl)]
        simp [hv]
      · rw [if_neg hv, h]
        simp [hv]

/-- Lookup after the guarded falsy-overwriting store, at any other
key. -/
theorem jsSetIfFalsy_lookup_ne (acc : List (String × Rat)) (code : String) (pct : Rat)
    (c : String) (h : c ≠ code) :
    lookupCode (jsSetIfFalsy acc code pct) c = lookupCode acc c := by
  unfold jsSetIfFalsy
  cases hl : lookupCode acc code with
  | none =>
      simp only []
      cases hc : lookupCode acc c with
      | some v => exact lookupCode_append_some _ _ _ _ hc
      | none =>
          rw [lookupCode_append_none _ _ _ hc]
          have h1 : code ≠ c := fun hh => h hh.symm
          simp [lookupCode, h1]
  | some v =>
      simp only []
      by_cases hv : v = 0
      · rw [if_pos hv]; exact lookupCode_map_ne acc code pct c h
      · rw [if_neg hv]

/-- The guarded store preserves distinctness of the stored keys. -/
theorem jsSetIfFalsy_keys_nodup (acc : List (String × Rat)) (code : String) (pct : Rat)
    (h : (acc.map Prod.fst).Nodup) : ((jsSetIfFalsy acc code pct).map Prod.fst).Nodup := by
  unfold jsSetIfFalsy
  cases hl : lookupCode acc code with
  | none =>
      simp only []
      rw [List.map_append]
      refine List.Nodup.append h (by simp) ?_
      intro a ha hb
      simp only [List.map_cons, List.map_nil, List.mem_singleton] at hb
      subst hb
      exact lookupCode_none_keys acc a hl ha
  | some v =>
      simp only []
      by_cases hv : v = 0
      · rw [if_pos hv]
        have hkeys : (acc.map (fun e => if e.1 = code then (code, pct) else e)).map Prod.fst
            = acc.map Prod.fst := by
          rw [List.map_map]
          refine List.map_congr_left ?_
          intro e _
          by_cases h1 : e.1 = code <;> simp [h1]
        rw [hkeys]; exact h
      · rw [if_neg hv]; exact h

/-- A participating recommendation has a non-empty code and a numeric
percent. -/
theorem validRec_destruct (r : DiscountReq) (h : validRec r = true) :
    ∃ code pct, r.discountCode = some code ∧ r.discountPercent = some pct ∧ code ≠ "" := by
  cases hc : r.discountCode with
  | none => simp [validRec, jsTruthyStr, hc] at h
  | some code =>
      cases hp : r.discountPercent with
      | none => simp [validRec, hc, hp] at h
      | some pct =>
          refine ⟨code, pct, rfl, rfl, ?_⟩
          intro hh
          subst hh
          simp [validRec, jsTruthyStr, hc] at h

/-- A non-participating recommendation is skipped by the uniqueCodes
fold. -/
theorem uniqueCodesAux_cons_invalid (acc : List (String × Rat)) (r : DiscountReq)
    (rest : List DiscountReq) (h : validRec r = false) :
    uniqueCodesAux acc (r :: rest) = uniqueCodesAux acc rest := by
  conv_lhs => unfold uniqueCodesAux
  cases hc : r.discountCode with
  | none => rfl
  | some code =>
      cases hp : r.discountPercent with
      | none => rfl
      | some pct =>
          have hcode : code = "" := by
            by_contra hne
            simp [validRec, jsTruthyStr, hc, hp, hne] at h
          subst hcode
          simp

/-- A participating recommendation performs the guarded store and the
fold continues. -/
theorem uniqueCodesAux_cons_valid (acc : List (String × Rat)) (r : DiscountReq)
    (rest : List DiscountReq) (code : String) (pct : Rat)
    (hc : r.discountCode = some code) (hp : r.discountPercent = some pct) (hne : code ≠ "") :
    uniqueCodesAux acc (r :: rest) = uniqueCodesAux (jsSetIfFalsy acc code pct) rest := by
  conv_lhs => unfold uniqueCodesAux
  simp [hc, hp, hne]

/-- A recommendation not participating for a given code changes neither
the presence witness nor the first non-zero percent for that code. -/
theorem validForCode_cons_false (cq : String) (r : DiscountReq) (rest : List DiscountReq)
    (h : validForCode cq r = false) :
    hasValidFor cq (r :: rest) = hasValidFor cq rest ∧
    firstNZPct cq (r :: rest) = firstNZPct cq rest := by
  constructor
  · simp [hasValidFor, List.any_cons, h]
  · simp [firstNZPct, List.find?_cons, h]

/-- Lookup in the uniqueCodes object built over an arbitrary initial
accumulator: an absent key is filled with the first JS-truthy percent of
the key (or its last stored zero), a stored zero keeps being
overwritten, and any other stored value survives. -/
theorem uniqueCodesAux_lookup (cq : String) :
    ∀ (recs : List DiscountReq) (acc : List (String × Rat)),
      lookupCode (uniqueCodesAux acc recs) cq =
        match lookupCode acc cq with
        | some v => if v = 0 then some ((firstNZPct cq recs).getD 0) else some v
        | none => if hasValidFor cq recs then some ((firstNZPct cq recs).getD 0) else none := by
  intro recs
  induction recs with
  | nil =>
      intro acc
      cases h : lookupCode acc cq with
      | none => simp [uniqueCodesAux, hasValidFor, h]
      | some v =>
          simp only [uniqueCodesAux]
          by_cases hv : v = 0
          · subst hv; simp [firstNZPct, h]
          · simp [hv, h]
  | cons r rest ih =>
      intro acc
      by_cases hval : validRec r = true
      · obtain ⟨code, pct, hc, hp, hcne⟩ := validRec_destruct r hval
        rw [uniqueCodesAux_cons_valid acc r rest code pct hc hp hcne, ih]
        by_cases hqc : cq = code
        · subst hqc
          rw [jsSetIfFalsy_lookup_self]
          have hvfc : validForCode cq r = true := by
            simp [validForCode, hval, hc]
          have hhv : hasValidFor cq (r :: rest) = true := by
            simp [hasValidFor, List.any_cons, hvfc]
          cases hl : lookupCode acc cq with
          | none =>
              simp only [hhv, if_true]
              by_cases hz : pct = 0
              · have hfz : firstNZPct cq (r :: rest) = firstNZPct cq rest := by
                  simp [firstNZPct, List.find?_cons, hvfc, hp, hz]
                simp [hz, hfz]
              · have hfz : firstNZPct cq (r :: rest) = some pct := by
                  simp [firstNZPct, List.find?_cons, hvfc, hp, hz]
                simp [hz, hfz]
          | some v =>
              simp only []
              by_cases hv : v = 0
              · simp only [hv, if_true, if_pos rfl]
                by_cases hz : pct = 0
                · have hfz : firstNZPct cq (r :: rest) = firstNZPct cq rest := by
                    simp [firstNZPct, List.find?_cons, hvfc, hp, hz]
                  simp [hz, hfz]
                · have hfz : firstNZPct cq (r :: rest) = some pct := by
                    simp [firstNZPct, List.find?_cons, hvfc, hp, hz]
                  simp [hz, hfz]
              · simp [hv]
        · rw [jsSetIfFalsy_lookup_ne acc code pct cq hqc]
          have hne2 : r.discountCode ≠ some cq := by
            rw [hc]
            intro hh
            exact hqc (Option.some.inj hh).symm
          have hvfc : validForCode cq r = false := by
            simp [validForCode, hne2]
          obtain ⟨hhv, hfz⟩ := validForCode_cons_false cq r rest hvfc
          rw [hhv, hfz]
      · have hval2 : validRec r = false := by
          cases hvv : validRec r
          · rfl
          · exact absurd hvv hval
        rw [uniqueCodesAux_cons_invalid acc r rest hval2, ih]
        have hvfc : validForCode cq r = false := by
          simp [validForCode, hval2]
        obtain ⟨hhv, hfz⟩ := validForCode_cons_false cq r rest hvfc
        rw [hhv, hfz]

/-- The keys of the uniqueCodes object are pairwise distinct. -/
theorem uniqueCodesAux_keys_nodup :
    ∀ (recs : List DiscountReq) (acc : List (String × Rat)),
      (acc.map Prod.fst).Nodup → ((uniqueCodesAux acc recs).map Prod.fst).Nodup := by
  intro recs
  induction recs with
  | nil => intro acc h; exact h
  | cons r rest ih =>
      intro acc h
      by_cases hval : validRec r = true
      · obtain ⟨code, pct, hc, hp, hcne⟩ := validRec_destruct r hval
        rw [uniqueCodesAux_cons_valid acc r rest code pct hc hp hcne]
        exact ih _ (jsSetIfFalsy_keys_nodup acc code pct h)
      · have hval2 : validRec r = false := by
          cases hvv : validRec r
          · rfl
          · exact absurd hvv hval
        rw [uniqueCodesAux_cons_invalid acc r rest hval2]
        exact ih _ h

/-- Success path of the discounts endpoint: with credentials present and
a non-empty array, status 200 and the created/failed partition of the
unique-code entries. -/
theorem postShopifyDiscounts_ok (key store : Option String) (recs : List DiscountReq)
    (create : String → Rat → Bool)
    (hk : jsTruthyStr key = true) (hs : jsTruthyStr store = true) (hne : recs ≠ []) :
    postShopifyDiscounts key store (some recs) create =
      { status := 200
        createdCodes := (uniqueCodesOf recs).filter (fun e => create e.1 e.2)
        failedCodes :=
          ((uniqueCodesOf recs).filter (fun e => !(create e.1 e.2))).map Prod.fst } := by
  unfold postShopifyDiscounts
  rw [if_neg (by simp [hk, hs])]
  simp only []
  rw [if_neg (by simp [hne])]
  rw [runDiscountLoop_eq]

/-- Claim C4 counterexample: with both Shopify credentials absent (and a
non-empty recommendations array) the discounts endpoint answers
HTTP 400, not the HTTP 500 the claim states. -/
theorem claim_C4_counterexample :
    (postShopifyDiscounts none none (some [recA10]) createOnlyA).status = 400 ∧
    (postShopifyDiscounts none none (some [recA10]) createOnlyA).status ≠ 500 := by
  constructor <;> decide

/-- Claim C4 as amended: the endpoint answers HTTP 400 when the
recommendations array is absent or empty, and HTTP 400 (not 500, the
credentials check running first) when a Shopify credential is missing;
otherwise it answers HTTP 200 where created and failed codes partition
the unique-code entries by the outcome of each creation attempt, a
failure never aborting the batch. -/
theorem claim_C4_discounts_endpoint :
    (∀ (key store : Option String) (create : String → Rat → Bool),
        postShopifyDiscounts key store none create = { status := 400 }
        ∧ postShopifyDiscounts key store (some []) create = { status := 400 })
    ∧ (∀ (recs : Option (List DiscountReq)) (create : String → Rat → Bool)
          (key store : Option String),
        ¬(jsTruthyStr key = true ∧ jsTruthyStr store = true) →
        postShopifyDiscounts key store recs create = { status := 400 })
    ∧ ∀ (key store : Option String) (recs : List DiscountReq) (create : String → Rat → Bool),
        jsTruthyStr key = true → jsTruthyStr store = true → recs ≠ [] →
        postShopifyDiscounts key store (some recs) create =
          { status := 200
            createdCodes := (uniqueCodesOf recs).filter (fun e => create e.1 e.2)
            failedCodes :=
              ((uniqueCodesOf recs).filter (fun e => !(create e.1 e.2))).map Prod.fst } := by
  refine ⟨fun key store create => ?_,
    fun recs create key store h => ?_,
    fun key store recs create hk hs hne => ?_⟩
  · constructor <;> (unfold postShopifyDiscounts; split_ifs <;> rfl)
  · unfold postShopifyDiscounts
    rw [if_pos h]
  · exact postShopifyDiscounts_ok key store recs create hk hs hne

/-- Claim C4 witness: with credentials present, codes A and B and an
oracle succeeding only on A, the endpoint answers 200 with A created and
B collected among the failed codes. -/
theorem claim_C4_witness :
    postShopifyDiscounts (some "key") (some "store") (some [recA10, recB5]) createOnlyA =
      { status := 200, createdCodes := [("A", 10)], failedCodes := ["B"] } := by
  have h := claim_C4_discounts_endpoint.2.2 (some "key") (some "store") [recA10, recB5]
    createOnlyA (by decide) (by decide) (by decide)
  rw [h]
  decide

/-- Claim C10 counterexample: two recommendations sharing code A with
percents 0 then 20 in list order end with stored percent 20; the
earliest occurrence's 0 is overwritten because the source tests the
stored value for JS falsiness, not for key presence. -/
theorem claim_C10_counterexample :
    lookupCode (uniqueCodesOf [recA0, recA20]) "A" = some 20 ∧
    lookupCode (uniqueCodesOf [recA0, recA20]) "A" ≠ some 0 := by
  constructor <;> decide

/-- Claim C10 as amended: creation is attempted at most once per
distinct code (the stored keys are pairwise distinct and the loop runs
once per entry); the percent used for a code is that of its earliest
occurrence with a non-zero percent, earlier zero percents being
overwritten, and 0 when every occurrence is zero; recommendations
lacking a truthy code or a numeric percent are skipped entirely and
reach neither createdCodes nor failedCodes. -/
theorem claim_C10_unique_codes :
    ∀ (recs : List DiscountReq),
      ((uniqueCodesOf recs).map Prod.fst).Nodup
      ∧ (∀ cq, lookupCode (uniqueCodesOf recs) cq =
          if hasValidFor cq recs then some ((firstNZPct cq recs).getD 0) else none)
      ∧ (∀ r, validRec r = false → uniqueCodesOf (r :: recs) = uniqueCodesOf recs)
      ∧ ∀ (key store : Option String) (create : String → Rat → Bool),
          jsTruthyStr key = true → jsTruthyStr store = true → recs ≠ [] →
          (postShopifyDiscounts key store (some recs) create).createdCodes =
              (uniqueCodesOf recs).filter (fun e => create e.1 e.2)
            ∧ (postShopifyDiscounts key store (some recs) create).failedCodes =
              ((uniqueCodesOf recs).filter (fun e => !(create e.1 e.2))).map Prod.fst := by
  intro recs
  refine ⟨uniqueCodesAux_keys_nodup recs [] (by simp), fun cq => ?_,
    fun r hr => uniqueCodesAux_cons_invalid [] r recs hr,
    fun key store create hk hs hne => ?_⟩
  · have h := uniqueCodesAux_lookup cq recs []
    simpa [lookupCode] using h
  · rw [postShopifyDiscounts_ok key store recs create hk hs hne]
    exact ⟨rfl, rfl⟩

/-- Claim C10 witness: with code A at ten percent and a codeless
recommendation, the stored percent for A is 10, the codeless record is
skipped, and only A reaches a creation attempt. -/
theorem claim_C10_witness :
    lookupCode (uniqueCodesOf [recA10, recNoCode5]) "A" = some 10 ∧
    uniqueCodesOf (recNoCode5 :: [recA10, recNoCode5]) = uniqueCodesOf [recA10, recNoCode5] ∧
    (postShopifyDiscounts (some "k") (some "s") (some [recA10, recNoCode5]) createOnlyA).createdCodes
      = [("A", 10)] := by
  have h := claim_C10_unique_codes [recA10, recNoCode5]
  refine ⟨(h.2.1 "A").trans (by decide), h.2.2.1 recNoCode5 (by decide), ?_⟩
  have h4 := (h.2.2.2 (some "k") (some "s") createOnlyA (by decide) (by decide) (by decide)).1
  exact h4.trans (by decide)
